import Mathlib

/-!
Verification of the shutr7 PTP protocol engine.

Shallow embedding of the Python sources under `src/shutr7/ptp/`:
byte buffers are `List Nat` (each element a byte value; every read goes
through `byteAt`, which reduces modulo 256 exactly as a Python `bytes`
element is always `< 256`), fallible code returns `Except`, and the
blocking USB in-channel is modelled as the finite list of byte chunks
that successive `read` calls return (an exhausted list models a read
failure / timeout).
-/

namespace Shutr7

/-- A byte read from a buffer: `data[i]` of a Python `bytes`, with 0 for an
out-of-range index (all call sites guard the index). -/
def byteAt (data : List Nat) (i : Nat) : Nat :=
  data.getD i 0 % 256

/-- `struct.unpack_from("<H", data, i)`: little-endian 16-bit value. -/
def leNat2 (data : List Nat) (i : Nat) : Nat :=
  byteAt data i + 256 * byteAt data (i + 1)

/-- `struct.unpack_from("<I", data, i)`: little-endian 32-bit value. -/
def leNat4 (data : List Nat) (i : Nat) : Nat :=
  byteAt data i + 256 * byteAt data (i + 1) + 65536 * byteAt data (i + 2)
    + 16777216 * byteAt data (i + 3)

/-- Python slice `data[a:b]` for non-negative bounds: clamps at the end of
the buffer, empty when `b ≤ a`. -/
def pySlice (data : List Nat) (a b : Nat) : List Nat :=
  (data.drop a).take (b - a)

/-- Python slice `data[:n]` where `n` may be negative (then it counts from
the end, clamped at 0). -/
def pyTakeInt (data : List Nat) (n : Int) : List Nat :=
  if 0 ≤ n then data.take n.toNat
  else data.take ((data.length : Int) + n).toNat

/-! ## Constants (`constants.py`) -/

def PROP_VALUE_CHANGED : Nat := 0xC189
def SHUTTER_RELEASE_COUNTER : Nat := 0xD167
def RESPONSE_OK : Nat := 0x2001
def OP_OPEN_SESSION : Nat := 0x1002
def OP_CLOSE_SESSION : Nat := 0x1003

/-! ## Canon event parsing (`canon.py`) -/

/-- The `int | bytes` union of `EOSPropertyValue.value`. -/
inductive EOSValue where
  | int (n : Nat)
  | bytes (b : List Nat)
  deriving DecidableEq, Repr

/-- `EOSPropertyValue` dataclass from `canon.py`. -/
structure EOSPropertyValue where
  property_code : Nat
  value : EOSValue
  deriving DecidableEq, Repr

/-- `CanonEOSProtocol._parse_event_data`: the `while` loop over event
records, starting at `offset`.  Each record is `length(4) + event_code(4)
+ data`; parsing stops on `record_len == 0`, `event_code == 0`, or fewer
than 8 remaining bytes.  Records whose event code is
`PROP_VALUE_CHANGED` are decoded (4-byte property code, then the value:
a little-endian u32 if exactly 4 bytes, raw bytes if non-empty
otherwise, dropped if empty); all records advance the offset by
`record_len`. -/
def parse_event_data (data : List Nat) (offset : Nat) : List EOSPropertyValue :=
  if h8 : offset + 8 ≤ data.length then
    let recordLen := leNat4 data offset
    let eventCode := leNat4 data (offset + 4)
    if hz : recordLen = 0 ∨ eventCode = 0 then
      []
    else
      (if eventCode = PROP_VALUE_CHANGED then
        let recordData := pySlice data (offset + 8) (offset + recordLen)
        if 4 ≤ recordData.length then
          let propCode := leNat4 recordData 0
          let propValue := recordData.drop 4
          if propValue.length = 4 then
            [⟨propCode, EOSValue.int (leNat4 propValue 0)⟩]
          else if propValue.length ≠ 0 then
            [⟨propCode, EOSValue.bytes propValue⟩]
          else
            []
        else
          []
      else
        []) ++ parse_event_data data (offset + recordLen)
  else
    []
termination_by data.length - offset
decreasing_by
  simp only [not_or] at hz
  have h1 : leNat4 data offset ≠ 0 := hz.1
  omega

/-- The same loop with an explicit iteration budget (`fuel`); used to state
that the source loop halts within `data.length - offset` iterations. -/
def parse_event_go (fuel : Nat) (data : List Nat) (offset : Nat) :
    List EOSPropertyValue :=
  match fuel with
  | 0 => []
  | fuel + 1 =>
    if offset + 8 ≤ data.length then
      let recordLen := leNat4 data offset
      let eventCode := leNat4 data (offset + 4)
      if recordLen = 0 ∨ eventCode = 0 then
        []
      else
        (if eventCode = PROP_VALUE_CHANGED then
          let recordData := pySlice data (offset + 8) (offset + recordLen)
          if 4 ≤ recordData.length then
            let propCode := leNat4 recordData 0
            let propValue := recordData.drop 4
            if propValue.length = 4 then
              [⟨propCode, EOSValue.int (leNat4 propValue 0)⟩]
            else if propValue.length ≠ 0 then
              [⟨propCode, EOSValue.bytes propValue⟩]
            else
              []
          else
            []
        else
          []) ++ parse_event_go fuel data (offset + recordLen)
    else
      []

/-- `CanonEOSProtocol.get_shutter_count`: the `for event in self.get_event()`
scan over a decoded event list. -/
def get_shutter_count (events : List EOSPropertyValue) : Option (Nat × Nat) :=
  match events with
  | [] => none
  | e :: rest =>
    if e.property_code = SHUTTER_RELEASE_COUNTER then
      match e.value with
      | EOSValue.bytes b =>
        if 16 ≤ b.length then some (leNat4 b 8, leNat4 b 12)
        else get_shutter_count rest
      | EOSValue.int _ => get_shutter_count rest
    else
      get_shutter_count rest

/-! ## USB transport (`transport.py`) -/

/-- The `USBTransportError` cases raised inside `send_command`'s receive
loop (each corresponds to one `raise` site / caught `USBError`). -/
inductive USBTransportError where
  /-- a `usb.core.USBError` from a read (including an exhausted channel) -/
  | readFailed
  /-- `Invalid response packet: too short (n bytes)` -/
  | tooShort (n : Nat)
  /-- `Unexpected packet type: t` -/
  | unexpectedPacketType (t : Nat)
  deriving DecidableEq, Repr

/-- PTP container types (`PTPPacketType`). -/
def PACKET_COMMAND : Nat := 1
def PACKET_DATA : Nat := 2
def PACKET_RESPONSE : Nat := 3

/-- The inner accumulation loop of `send_command`'s Data branch:
`while len(response_data) + 12 < pkt_len: response_data += read()`,
followed by the trim `response_data[: pkt_len - 12]`.  Returns the
trimmed data and the chunks not yet consumed. -/
def read_data_phase (chunks : List (List Nat)) (acc : List Nat) (pktLen : Nat) :
    Except USBTransportError (List Nat × List (List Nat)) :=
  if acc.length + 12 < pktLen then
    match chunks with
    | [] => Except.error USBTransportError.readFailed
    | c :: rest => read_data_phase rest (acc ++ c) pktLen
  else
    Except.ok (pyTakeInt acc ((pktLen : Int) - 12), chunks)

/-- Each successful `read_data_phase` leaves a suffix of the chunk list. -/
theorem read_data_phase_drop (chunks : List (List Nat)) (acc : List Nat)
    (pktLen : Nat) (d : List Nat) (rest' : List (List Nat))
    (h : read_data_phase chunks acc pktLen = Except.ok (d, rest')) :
    ∃ k, rest' = chunks.drop k := by
  induction chunks generalizing acc with
  | nil =>
    rw [read_data_phase] at h
    split at h
    · exact absurd h (by simp)
    · exact ⟨0, by simpa using (by injection h with h; exact (congrArg Prod.snd h).symm)⟩
  | cons c rest ih =>
    rw [read_data_phase] at h
    split at h
    · obtain ⟨k, hk⟩ := ih (acc ++ c) h
      exact ⟨k + 1, by simpa using hk⟩
    · refine ⟨0, ?_⟩
      injection h with h
      simpa using (congrArg Prod.snd h).symm

theorem read_data_phase_drop_le (chunks : List (List Nat)) (acc : List Nat)
    (pktLen : Nat) (d : List Nat) (rest' : List (List Nat))
    (h : read_data_phase chunks acc pktLen = Except.ok (d, rest')) :
    rest'.length ≤ chunks.length := by
  obtain ⟨k, hk⟩ := read_data_phase_drop chunks acc pktLen d rest' h
  subst hk
  simp [List.length_drop]

/-- The receive loop of `USBTransport.send_command` (`while True:` over
`self.in_ep.read(...)`): reads one chunk per iteration, checks the
12-byte header, reassembles a Data container via `read_data_phase`
(overwriting `response_data`), returns on a Response container, and
fails on any other container type.  An empty chunk list models a read
that raises `usb.core.USBError`. -/
def receive_response (chunks : List (List Nat)) (respData : List Nat) :
    Except USBTransportError (Nat × List Nat) :=
  match chunks with
  | [] => Except.error USBTransportError.readFailed
  | c :: rest =>
    if c.length < 12 then
      Except.error (USBTransportError.tooShort c.length)
    else
      let pktType := leNat2 c 4
      if pktType = PACKET_DATA then
        match hRD : read_data_phase rest (c.drop 12) (leNat4 c 0) with
        | Except.error e => Except.error e
        | Except.ok (d, rest') => receive_response rest' d
      else if pktType = PACKET_RESPONSE then
        Except.ok (leNat2 c 6, respData)
      else
        Except.error (USBTransportError.unexpectedPacketType pktType)
termination_by chunks.length
decreasing_by
  have := read_data_phase_drop_le rest (c.drop 12) (leNat4 c 0) d rest' hRD
  simp only [List.length_cons]
  omega

/-- The receive loop with an explicit iteration budget; each iteration of
the source loop consumes at least the one chunk holding the container
header, so a budget beyond the chunk count never runs out
(`receive_go_spec`). -/
def receive_go (fuel : Nat) (chunks : List (List Nat)) (respData : List Nat) :
    Except USBTransportError (Nat × List Nat) :=
  match fuel with
  | 0 => Except.error USBTransportError.readFailed
  | fuel + 1 =>
    match chunks with
    | [] => Except.error USBTransportError.readFailed
    | c :: rest =>
      if c.length < 12 then
        Except.error (USBTransportError.tooShort c.length)
      else
        let pktType := leNat2 c 4
        if pktType = PACKET_DATA then
          match read_data_phase rest (c.drop 12) (leNat4 c 0) with
          | Except.error e => Except.error e
          | Except.ok (d, rest') => receive_go fuel rest' d
        else if pktType = PACKET_RESPONSE then
          Except.ok (leNat2 c 6, respData)
        else
          Except.error (USBTransportError.unexpectedPacketType pktType)

/-- With more fuel than chunks, the budgeted receive loop agrees with the
source loop. -/
theorem receive_go_spec (fuel : Nat) (chunks : List (List Nat))
    (respData : List Nat) (h : chunks.length < fuel) :
    receive_go fuel chunks respData = receive_response chunks respData := by
  induction fuel generalizing chunks respData with
  | zero => omega
  | succ fuel ih =>
    match chunks with
    | [] => rw [receive_go, receive_response]
    | c :: rest =>
      rw [receive_go, receive_response]
      by_cases hlen : c.length < 12
      · simp [hlen]
      · simp only [hlen, if_false]
        by_cases hT : leNat2 c 4 = PACKET_DATA
        · simp only [hT, if_true]
          cases hRD : read_data_phase rest (c.drop 12) (leNat4 c 0) with
          | error e => rfl
          | ok p =>
            obtain ⟨d, rest'⟩ := p
            have hle := read_data_phase_drop_le rest (c.drop 12) (leNat4 c 0)
              d rest' hRD
            simp only []
            exact ih rest' d (by simp at h; omega)
        · simp [hT]

/-- `struct.pack("<I", n)`: four little-endian bytes. -/
def pack32 (n : Nat) : List Nat :=
  [n % 256, n / 256 % 256, n / 65536 % 256, n / 16777216 % 256]

/-- `struct.pack("<H", n)`: two little-endian bytes. -/
def pack16 (n : Nat) : List Nat :=
  [n % 256, n / 256 % 256]

/-- The command container `send_command` writes:
`struct.pack("<IHHI", 12 + len(param_data), COMMAND, code, tid) + param_data`. -/
def build_command_packet (code : Nat) (params : List Nat) (tid : Nat) :
    List Nat :=
  pack32 (12 + 4 * params.length) ++ pack16 PACKET_COMMAND ++ pack16 code
    ++ pack32 tid ++ (params.map pack32).flatten

/-- The data container `send_command` writes when a payload is given:
`struct.pack("<IHHI", 12 + len(data), DATA, code, tid) + data`. -/
def build_data_packet (code : Nat) (payload : List Nat) (tid : Nat) :
    List Nat :=
  pack32 (12 + payload.length) ++ pack16 PACKET_DATA ++ pack16 code
    ++ pack32 tid ++ payload

/-- `USBTransport.send_command`, with the mutable `_transaction_id` made
explicit.  Randomness-free pure model: given the current counter, the
operation code, parameters, optional data payload and the chunks the
in-channel will deliver, returns the new counter, the containers written
to the out-channel (command packet, then the optional data packet, both
carrying the drawn transaction id), and the receive outcome. -/
def send_command (tidCounter : Nat) (code : Nat) (params : List Nat)
    (payload : Option (List Nat)) (chunks : List (List Nat)) :
    Nat × List (List Nat) × Except USBTransportError (Nat × List Nat) :=
  let tid := tidCounter
  let sent := build_command_packet code params tid ::
    (match payload with
     | some d => [build_data_packet code d tid]
     | none => [])
  (tidCounter + 1, sent, receive_response chunks [])

/-! ## PTP protocol layer (`protocol.py`) -/

/-- Errors the protocol layer can surface: a transport error propagated
from `send_command`, or a `RuntimeError` carrying the non-OK response
code. -/
inductive PTPError where
  | transport (e : USBTransportError)
  | failedResponse (rc : Nat)
  deriving DecidableEq, Repr

/-- `PTPProtocol.open_session`: sends OpenSession with parameter `[1]`;
raises on a transport error or a non-OK response code, and resets the
transaction-id counter to 0 on success.  Returns the counter after the
call together with the error, if any (on an error the Python object
keeps the already-incremented counter). -/
def open_session (tidCounter : Nat) (chunks : List (List Nat)) :
    Nat × Option PTPError :=
  match send_command tidCounter OP_OPEN_SESSION [1] none chunks with
  | (tc, _, Except.error e) => (tc, some (PTPError.transport e))
  | (tc, _, Except.ok (rc, _)) =>
    if rc ≠ RESPONSE_OK then (tc, some (PTPError.failedResponse rc))
    else (0, none)

/-- `PTPProtocol.close_session`: sends CloseSession inside
`try: ... except Exception: pass`, so both outcome arms discard the
error. -/
def close_session (tidCounter : Nat) (chunks : List (List Nat)) :
    Nat × Option PTPError :=
  match send_command tidCounter OP_CLOSE_SESSION [] none chunks with
  | (tc, _, Except.error _) => (tc, none)
  | (tc, _, Except.ok _) => (tc, none)

/-- Strict UTF-16-LE decoding, as Python's `bytes.decode("utf-16-le")`:
pairs of bytes form code units; a basic-plane non-surrogate unit is one
character, a high surrogate must be followed by a low surrogate (forming
one supplementary character), and anything else — a trailing odd byte, a
lone or misordered surrogate — raises `UnicodeDecodeError` (`none`). -/
def decodeUtf16le : List Nat → Option (List Char)
  | [] => some []
  | [_] => none
  | b0 :: b1 :: rest =>
    let u := b0 % 256 + 256 * (b1 % 256)
    if u < 0xD800 ∨ 0xE000 ≤ u then
      match decodeUtf16le rest with
      | some cs => some (Char.ofNat u :: cs)
      | none => none
    else if u < 0xDC00 then
      match rest with
      | b2 :: b3 :: rest' =>
        let v := b2 % 256 + 256 * (b3 % 256)
        if 0xDC00 ≤ v ∧ v < 0xE000 then
          match decodeUtf16le rest' with
          | some cs =>
            some (Char.ofNat (0x10000 + (u - 0xD800) * 1024 + (v - 0xDC00)) :: cs)
          | none => none
        else
          none
      | _ => none
    else
      none

/-- `PTPProtocol._read_ptp_string`: count byte `C` (character count
including the terminator), then `C*2` UTF-16-LE bytes; decodes all but
the trailing 2 terminator bytes.  Out-of-range offset or a declared
length past the end of the buffer returns the empty string; an invalid
UTF-16 sequence returns the empty string but still advances the
offset. -/
def read_ptp_string (data : List Nat) (offset : Nat) : List Char × Nat :=
  if data.length ≤ offset then
    ([], offset)
  else
    let numChars := byteAt data offset
    let offset1 := offset + 1
    if numChars = 0 then
      ([], offset1)
    else
      let byteLen := numChars * 2
      if data.length < offset1 + byteLen then
        ([], offset1)
      else
        let s :=
          match decodeUtf16le (pySlice data offset1 (offset1 + byteLen - 2)) with
          | some cs => cs
          | none => []
        (s, offset1 + byteLen)

/-- `PTPProtocol._skip_uint16_array`: u32 element count `N`, then `N`
16-bit elements; with fewer than 4 bytes remaining the offset is left
unchanged. -/
def skip_uint16_array (data : List Nat) (offset : Nat) : Nat :=
  if data.length < offset + 4 then offset
  else offset + 4 + leNat4 data offset * 2

/-- `DeviceInfo` dataclass from `protocol.py` (strings as `List Char`). -/
structure DeviceInfo where
  manufacturer : List Char
  model : List Char
  device_version : List Char
  deriving DecidableEq, Repr

/-- `PTPProtocol._parse_device_info`: skip 8 bytes, read and discard the
vendor-extension-description string, skip 2 bytes (functional mode),
skip five u32-count-prefixed arrays of 16-bit elements, then read the
manufacturer, model and device-version strings. -/
def parse_device_info (data : List Nat) : DeviceInfo :=
  let offset := 8
  let (_, offset) := read_ptp_string data offset
  let offset := offset + 2
  let offset := (List.range 5).foldl (fun o _ => skip_uint16_array data o) offset
  let (manufacturer, offset) := read_ptp_string data offset
  let (model, offset) := read_ptp_string data offset
  let (device_version, _) := read_ptp_string data offset
  ⟨manufacturer, model, device_version⟩

/-! ## Shared helper lemmas -/

/-- Budget adequacy for the event-record loop: with at least
`data.length - offset` iterations of budget, the budgeted loop agrees
with the source loop, i.e. the source loop halts within that many
iterations. -/
theorem parse_event_go_spec (fuel : Nat) (data : List Nat) (offset : Nat)
    (h : data.length ≤ offset + fuel) :
    parse_event_go fuel data offset = parse_event_data data offset := by
  induction fuel generalizing offset with
  | zero =>
    rw [parse_event_go, parse_event_data]
    have h8 : ¬ offset + 8 ≤ data.length := by omega
    simp [h8]
  | succ fuel ih =>
    rw [parse_event_go, parse_event_data]
    by_cases h8 : offset + 8 ≤ data.length
    · simp only [h8, if_true, dif_pos]
      by_cases hz : leNat4 data offset = 0 ∨ leNat4 data (offset + 4) = 0
      · simp [hz]
      · simp only [hz, if_false, dif_neg]
        have h1 : leNat4 data offset ≠ 0 := fun hc => hz (Or.inl hc)
        rw [ih (offset + leNat4 data offset) (by omega)]
        simp
    · simp [h8]

/-! ## Claim C1 -/

/-- From the claim's words: an event qualifies for the shutter-counter
scan when its property code is the shutter-release-counter code and its
value is the raw-bytes variant of length at least 16. -/
def isShutterCounterEvent (e : EOSPropertyValue) : Bool :=
  decide (e.property_code = SHUTTER_RELEASE_COUNTER) &&
    (match e.value with
     | EOSValue.bytes b => decide (16 ≤ b.length)
     | EOSValue.int _ => false)

/-- From the claim's words: the pair of little-endian u32 values at byte
offsets `[8,12)` and `[12,16)` of a raw-bytes value (junk on the integer
variant, which never qualifies). -/
def shutterCountersOf (e : EOSPropertyValue) : Nat × Nat :=
  match e.value with
  | EOSValue.bytes b => (leNat4 b 8, leNat4 b 12)
  | EOSValue.int _ => (0, 0)

/-- C1: over every event list, `get_shutter_count` returns the decoded
`(mechanical, total)` pair — the little-endian u32 values at byte
offsets `[8,12)` and `[12,16)` — of the first event whose property code
is the shutter-release-counter code `0xD167` and whose value is the
raw-bytes variant of length at least 16, and returns `none` when no
event qualifies. -/
theorem c1_get_shutter_count_first_qualifying (events : List EOSPropertyValue) :
    get_shutter_count events =
      (events.find? isShutterCounterEvent).map shutterCountersOf := by
  induction events with
  | nil => rfl
  | cons e rest ih =>
    rw [get_shutter_count, List.find?]
    by_cases hp : e.property_code = SHUTTER_RELEASE_COUNTER
    · cases hv : e.value with
      | int n =>
        simp [hp, hv, isShutterCounterEvent, ih]
      | bytes b =>
        by_cases hb : 16 ≤ b.length
        · simp [hp, hv, hb, isShutterCounterEvent, shutterCountersOf]
        · simp [hp, hv, hb, isShutterCounterEvent, ih]
    · simp [hp, isShutterCounterEvent, ih]

/-! ## Claim C3 -/

/-- C3: event-record parsing halts — returning no further events —
exactly when fewer than 8 bytes remain at the current offset, or the
4-byte record length is 0, or the 4-byte event code is 0; a record
whose event code differs from the property-value-changed code `0xC189`
contributes no event, the parse continuing at exactly `offset + L`; and
whenever none of the halting conditions holds the parse does continue,
contributing exactly one record's worth (one loop iteration,
`parse_event_go 1`) before restarting at `offset + L`. -/
theorem c3_parse_event_halting (data : List Nat) (offset : Nat) :
    (data.length < offset + 8 → parse_event_data data offset = []) ∧
    (offset + 8 ≤ data.length →
      (leNat4 data offset = 0 ∨ leNat4 data (offset + 4) = 0) →
      parse_event_data data offset = []) ∧
    (offset + 8 ≤ data.length →
      leNat4 data offset ≠ 0 → leNat4 data (offset + 4) ≠ 0 →
      leNat4 data (offset + 4) ≠ PROP_VALUE_CHANGED →
      parse_event_data data offset =
        parse_event_data data (offset + leNat4 data offset)) ∧
    (offset + 8 ≤ data.length →
      leNat4 data offset ≠ 0 → leNat4 data (offset + 4) ≠ 0 →
      parse_event_data data offset =
        parse_event_go 1 data offset ++
          parse_event_data data (offset + leNat4 data offset)) := by
  refine ⟨fun h => ?_, fun h8 hz => ?_, fun h8 hL hc hne => ?_, fun h8 hL hc => ?_⟩
  · rw [parse_event_data]
    have h8 : ¬ offset + 8 ≤ data.length := by omega
    simp [h8]
  · rw [parse_event_data]
    simp [h8, hz]
  · rw [parse_event_data]
    have hz : ¬ (leNat4 data offset = 0 ∨ leNat4 data (offset + 4) = 0) := by
      simp [hL, hc]
    simp [h8, hz, hne]
  · have hz : ¬ (leNat4 data offset = 0 ∨ leNat4 data (offset + 4) = 0) := by
      simp [hL, hc]
    rw [parse_event_data, parse_event_go]
    simp [h8, hz, parse_event_go]

/-- Concrete check for C3: a 9-byte buffer holding one record of length
9 with the (non-matching) event code 1 parses to the same result as the
parse restarted past that record. -/
theorem c3_witness :
    parse_event_data (pack32 9 ++ pack32 1 ++ [0x77]) 0 =
      parse_event_data (pack32 9 ++ pack32 1 ++ [0x77]) 9 :=
  (c3_parse_event_halting (pack32 9 ++ pack32 1 ++ [0x77]) 0).2.2.1
    (by decide) (by decide) (by decide) (by decide)

/-! ## Claim C4 -/

/-- C4: a decodable property-value-changed record (length `L ≠ 0`, event
code `0xC189`, at least 4 bytes of record data) whose value payload —
the record data after the 4-byte property code — is exactly 4 bytes
yields the integer variant holding the payload's little-endian u32 and
never the bytes variant; a non-empty payload of any other length yields
the raw-bytes variant; an empty payload yields no event. -/
theorem c4_property_event_value_variants (data : List Nat) (offset : Nat)
    (h8 : offset + 8 ≤ data.length)
    (hL : leNat4 data offset ≠ 0)
    (hcode : leNat4 data (offset + 4) = PROP_VALUE_CHANGED) :
    (4 ≤ (pySlice data (offset + 8) (offset + leNat4 data offset)).length →
      ((pySlice data (offset + 8) (offset + leNat4 data offset)).drop 4).length = 4 →
      parse_event_data data offset =
        ⟨leNat4 (pySlice data (offset + 8) (offset + leNat4 data offset)) 0,
         EOSValue.int (leNat4
           ((pySlice data (offset + 8) (offset + leNat4 data offset)).drop 4) 0)⟩ ::
          parse_event_data data (offset + leNat4 data offset)) ∧
    (4 ≤ (pySlice data (offset + 8) (offset + leNat4 data offset)).length →
      ((pySlice data (offset + 8) (offset + leNat4 data offset)).drop 4).length ≠ 4 →
      ((pySlice data (offset + 8) (offset + leNat4 data offset)).drop 4).length ≠ 0 →
      parse_event_data data offset =
        ⟨leNat4 (pySlice data (offset + 8) (offset + leNat4 data offset)) 0,
         EOSValue.bytes
           ((pySlice data (offset + 8) (offset + leNat4 data offset)).drop 4)⟩ ::
          parse_event_data data (offset + leNat4 data offset)) ∧
    (4 ≤ (pySlice data (offset + 8) (offset + leNat4 data offset)).length →
      ((pySlice data (offset + 8) (offset + leNat4 data offset)).drop 4).length = 0 →
      parse_event_data data offset =
        parse_event_data data (offset + leNat4 data offset)) := by
  have hz : ¬ (leNat4 data offset = 0 ∨ leNat4 data (offset + 4) = 0) := by
    simp only [not_or]
    exact ⟨hL, by rw [hcode]; decide⟩
  have hz2 : ¬ (leNat4 data offset = 0 ∨ PROP_VALUE_CHANGED = 0) := by
    simp only [not_or]
    exact ⟨hL, by decide⟩
  refine ⟨fun hrd hpv => ?_, fun hrd hpv hne => ?_, fun hrd hpv => ?_⟩
  · rw [parse_event_data]
    simp only [List.length_drop] at hpv
    simp [h8, hz, hz2, hcode, hrd, hpv]
  · rw [parse_event_data]
    simp only [List.length_drop] at hpv hne
    simp [h8, hz, hz2, hcode, hrd, hpv, hne]
  · rw [parse_event_data]
    simp only [List.length_drop] at hpv
    simp [h8, hz, hz2, hcode, hrd, hpv]

/-- Concrete check for C4: a 16-byte record (code `0xC189`, property
`0xD167`, 4-byte payload `[1,2,3,4]`) decodes to the integer variant
`0x04030201`. -/
theorem c4_witness :
    parse_event_data (pack32 16 ++ pack32 0xC189 ++ pack32 0xD167 ++ [1, 2, 3, 4]) 0 =
      ⟨0xD167, EOSValue.int 0x04030201⟩ ::
        parse_event_data (pack32 16 ++ pack32 0xC189 ++ pack32 0xD167 ++ [1, 2, 3, 4]) 16 :=
  (c4_property_event_value_variants
    (pack32 16 ++ pack32 0xC189 ++ pack32 0xD167 ++ [1, 2, 3, 4]) 0
    (by decide) (by decide) (by decide)).1 (by decide) (by decide)

/-! ## Claim C10 -/

/-- C10: event-record parsing is total and bounded.  The loop halts
within `data.length - offset` iterations (any budget of at least that
many iterations already computes the full result, because every record
that does not stop the parse has `L ≥ 1` and so strictly advances the
offset); the record-data slice never covers bytes beyond the buffer — a
record length `L` reaching past the end yields the truncated slice to
the end of the buffer; and a property-value-changed record with fewer
than 4 bytes of record data is silently dropped, the parse continuing
at `offset + L`. -/
theorem c10_parse_event_total_and_in_bounds (data : List Nat)
    (offset fuel : Nat) (hfuel : data.length ≤ offset + fuel) :
    parse_event_go fuel data offset = parse_event_data data offset ∧
    (pySlice data (offset + 8) (offset + leNat4 data offset)).length ≤
      data.length - (offset + 8) ∧
    (data.length ≤ offset + leNat4 data offset →
      pySlice data (offset + 8) (offset + leNat4 data offset) =
        data.drop (offset + 8)) ∧
    (offset + 8 ≤ data.length → leNat4 data offset ≠ 0 →
      leNat4 data (offset + 4) = PROP_VALUE_CHANGED →
      (pySlice data (offset + 8) (offset + leNat4 data offset)).length < 4 →
      parse_event_data data offset =
        parse_event_data data (offset + leNat4 data offset)) := by
  refine ⟨parse_event_go_spec fuel data offset hfuel, ?_, fun hpast => ?_,
    fun h8 hL hcode hshort => ?_⟩
  · rw [pySlice]
    simp
  · rw [pySlice]
    have hlen : (data.drop (offset + 8)).length ≤
        offset + leNat4 data offset - (offset + 8) := by
      simp only [List.length_drop]
      omega
    exact List.take_of_length_le hlen
  · have hz : ¬ (leNat4 data offset = 0 ∨ leNat4 data (offset + 4) = 0) := by
      simp only [not_or]
      exact ⟨hL, by rw [hcode]; decide⟩
    have hz2 : ¬ (leNat4 data offset = 0 ∨ PROP_VALUE_CHANGED = 0) := by
      simp only [not_or]
      exact ⟨hL, by decide⟩
    rw [parse_event_data]
    have hrd : ¬ 4 ≤ (pySlice data (offset + 8) (offset + leNat4 data offset)).length := by
      omega
    simp [h8, hz, hz2, hcode, hrd]

/-- Concrete check for C10: a buffer holding one record whose declared
length 200 far exceeds the 16 available bytes — parsing still halts
(budget 16 suffices), the record-data slice is the 8-byte in-bounds
tail, and the record decodes from the truncated slice. -/
theorem c10_witness :
    parse_event_go 16 (pack32 200 ++ pack32 0xC189 ++ pack32 0xD167 ++ [9, 9, 9, 9]) 0 =
      parse_event_data (pack32 200 ++ pack32 0xC189 ++ pack32 0xD167 ++ [9, 9, 9, 9]) 0 ∧
    pySlice (pack32 200 ++ pack32 0xC189 ++ pack32 0xD167 ++ [9, 9, 9, 9]) 8 200 =
      (pack32 200 ++ pack32 0xC189 ++ pack32 0xD167 ++ [9, 9, 9, 9]).drop 8 :=
  ⟨(c10_parse_event_total_and_in_bounds
      (pack32 200 ++ pack32 0xC189 ++ pack32 0xD167 ++ [9, 9, 9, 9]) 0 16 (by decide)).1,
   (c10_parse_event_total_and_in_bounds
      (pack32 200 ++ pack32 0xC189 ++ pack32 0xD167 ++ [9, 9, 9, 9]) 0 16 (by decide)).2.2.1
      (by decide)⟩

/-- One step of the receive loop on a Data container: the reassembled
data replaces the accumulated response data and the loop continues. -/
theorem receive_response_step_data (c : List Nat) (rest : List (List Nat))
    (resp : List Nat) (hc : ¬ c.length < 12) (hT : leNat2 c 4 = PACKET_DATA)
    (d : List Nat) (rest' : List (List Nat))
    (h : read_data_phase rest (c.drop 12) (leNat4 c 0) = Except.ok (d, rest')) :
    receive_response (c :: rest) resp = receive_response rest' d := by
  rw [receive_response]
  simp only [hc, if_false, hT, if_true]
  split
  · rename_i e heq
    rw [h] at heq
    exact absurd heq (by simp)
  · rename_i d1 rest1 heq
    rw [h] at heq
    injection heq with heq
    injection heq with h1 h2
    rw [h1, h2]

/-- One step of the receive loop on a Response container: the call
completes, returning the header's code and the accumulated data. -/
theorem receive_response_step_response (c : List Nat) (rest : List (List Nat))
    (resp : List Nat) (hc : ¬ c.length < 12)
    (hT : leNat2 c 4 = PACKET_RESPONSE) :
    receive_response (c :: rest) resp = Except.ok (leNat2 c 6, resp) := by
  have hT2 : leNat2 c 4 ≠ PACKET_DATA := by rw [hT]; decide
  rw [receive_response]
  simp [hc, hT2, hT, PACKET_DATA, PACKET_RESPONSE]

/-! ## Claim C2 (corrected) -/

/-- C2 as stated is false: after a fully reassembled Data container
(declared length 13, payload `[0xAA]`), the next container read is a
second Data container — by the claim the call must fail with
ProtocolError and return no result, but the receive loop of
`send_command` re-enters its Data branch, reassembles the second
container (payload `[0xBB]`, replacing the first), and returns normally
once the Response container arrives. -/
theorem c2_counterexample :
    receive_response
      [pack32 13 ++ pack16 2 ++ pack16 0x9116 ++ pack32 0 ++ [0xAA],
       pack32 13 ++ pack16 2 ++ pack16 0x9116 ++ pack32 0 ++ [0xBB],
       pack32 12 ++ pack16 3 ++ pack16 0x2001 ++ pack32 0] [] =
      Except.ok (0x2001, [0xBB]) := by
  rw [← receive_go_spec 4 _ _ (by decide)]
  rfl

/-- C2 amended: after a Data container has been reassembled, the next
container read must be of type Response or Data — a Response completes
the call, a second Data container is reassembled anew (replacing the
previously accumulated data), and only a container of any other type
makes `send_command` fail with ProtocolError. -/
theorem c2_amended_next_container_type (c : List Nat) (rest : List (List Nat))
    (resp : List Nat) (hc : ¬ c.length < 12) :
    (leNat2 c 4 ≠ PACKET_DATA → leNat2 c 4 ≠ PACKET_RESPONSE →
      receive_response (c :: rest) resp =
        Except.error (USBTransportError.unexpectedPacketType (leNat2 c 4))) ∧
    (leNat2 c 4 = PACKET_RESPONSE →
      receive_response (c :: rest) resp = Except.ok (leNat2 c 6, resp)) ∧
    (leNat2 c 4 = PACKET_DATA →
      ∀ d rest', read_data_phase rest (c.drop 12) (leNat4 c 0) = Except.ok (d, rest') →
        receive_response (c :: rest) resp = receive_response rest' d) := by
  refine ⟨fun hT hT3 => ?_, receive_response_step_response c rest resp hc,
    fun hT d rest' h => receive_response_step_data c rest resp hc hT d rest' h⟩
  rw [receive_response]
  simp [hc, hT, hT3]

/-- Concrete check for the amended C2: a Command container (type 1)
arriving where a Response is expected fails with the
unexpected-packet-type error. -/
theorem c2_amended_witness :
    receive_response [pack32 12 ++ pack16 1 ++ pack16 0x9116 ++ pack32 0] [0xAA] =
      Except.error (USBTransportError.unexpectedPacketType 1) :=
  (c2_amended_next_container_type
    (pack32 12 ++ pack16 1 ++ pack16 0x9116 ++ pack32 0) [] [0xAA]
    (by decide)).1 (by decide) (by decide)

/-! ## Claim C7 -/

/-- Full characterization of a successful data-phase reassembly: some
prefix of `k` chunks is consumed and appended to the initial chunk
remainder, the accumulation stopping as soon as the declared length is
reached; the result is the Python-truncation of the accumulation. -/
theorem read_data_phase_ok (chunks : List (List Nat)) (acc : List Nat)
    (pktLen : Nat) (d : List Nat) (rest' : List (List Nat))
    (h : read_data_phase chunks acc pktLen = Except.ok (d, rest')) :
    ∃ k, rest' = chunks.drop k ∧
      d = pyTakeInt (acc ++ (chunks.take k).flatten) ((pktLen : Int) - 12) ∧
      ¬ ((acc ++ (chunks.take k).flatten).length + 12 < pktLen) := by
  induction chunks generalizing acc with
  | nil =>
    rw [read_data_phase] at h
    split at h
    · exact absurd h (by simp)
    · rename_i hstop
      refine ⟨0, ?_⟩
      simp only [Except.ok.injEq, Prod.mk.injEq] at h
      obtain ⟨h1, h2⟩ := h
      simp only [List.take_nil, List.flatten_nil, List.append_nil, List.drop_nil]
      exact ⟨h2.symm, h1.symm, hstop⟩
  | cons c rest ih =>
    rw [read_data_phase] at h
    split at h
    · obtain ⟨k, hk1, hk2, hk3⟩ := ih (acc ++ c) h
      refine ⟨k + 1, ?_, ?_, ?_⟩
      · simpa using hk1
      · simpa [List.append_assoc] using hk2
      · simpa [List.append_assoc] using hk3
    · rename_i hstop
      refine ⟨0, ?_⟩
      simp only [Except.ok.injEq, Prod.mk.injEq] at h
      obtain ⟨h1, h2⟩ := h
      simp only [List.take_zero, List.flatten_nil, List.append_nil, List.drop_zero]
      exact ⟨h2.symm, h1.symm, hstop⟩

/-- C7: when the first container is a Data container of declared length
`pkt_len ≥ 12`, reassembly appends further reads exactly until the
accumulated payload reaches `pkt_len - 12` bytes and truncates to
exactly `pkt_len - 12` bytes, regardless of how many reads were needed
or how much padding the last read carried; if the container read next
is a Response, `send_command` returns exactly that truncated data. -/
theorem c7_data_reassembly_exact_length (c : List Nat)
    (rest : List (List Nat)) (resp d : List Nat) (rest' : List (List Nat))
    (hc : ¬ c.length < 12) (hT : leNat2 c 4 = PACKET_DATA)
    (h12 : 12 ≤ leNat4 c 0)
    (h : read_data_phase rest (c.drop 12) (leNat4 c 0) = Except.ok (d, rest')) :
    d.length = leNat4 c 0 - 12 ∧
    (∃ k, rest' = rest.drop k ∧
      d = (c.drop 12 ++ (rest.take k).flatten).take (leNat4 c 0 - 12)) ∧
    (∀ r rest2, rest' = r :: rest2 → ¬ r.length < 12 →
      leNat2 r 4 = PACKET_RESPONSE →
      receive_response (c :: rest) resp = Except.ok (leNat2 r 6, d)) := by
  obtain ⟨k, hk1, hk2, hk3⟩ :=
    read_data_phase_ok rest (c.drop 12) (leNat4 c 0) d rest' h
  have hpy : pyTakeInt (c.drop 12 ++ (rest.take k).flatten)
      ((leNat4 c 0 : Int) - 12) =
      (c.drop 12 ++ (rest.take k).flatten).take (leNat4 c 0 - 12) := by
    rw [pyTakeInt]
    have hnn : (0 : Int) ≤ (leNat4 c 0 : Int) - 12 := by omega
    rw [if_pos hnn]
    congr 1
    omega
  refine ⟨?_, ⟨k, hk1, by rw [hk2, hpy]⟩, fun r rest2 hr hrlen hrT => ?_⟩
  · rw [hk2, hpy]
    simp only [List.length_take]
    omega
  · rw [receive_response_step_data c rest resp hc hT d rest' h, hr]
    exact receive_response_step_response r rest2 d hrlen hrT

/-- Concrete check for C7: a Data container of declared length 18 whose
payload needs three physical reads (`[1,2]`, then `[3,4]`, then
`[5,6,7,8,9]` with 3 bytes of padding) reassembles to exactly the
6 declared payload bytes, and the following Response container makes
`send_command` return them. -/
theorem c7_witness :
    ([1, 2, 3, 4, 5, 6] : List Nat).length = 18 - 12 ∧
    receive_response
      [pack32 18 ++ pack16 2 ++ pack16 0x9116 ++ pack32 0 ++ [1, 2],
       [3, 4], [5, 6, 7, 8, 9],
       pack32 12 ++ pack16 3 ++ pack16 0x2001 ++ pack32 0] [] =
      Except.ok (0x2001, [1, 2, 3, 4, 5, 6]) := by
  have hmain := c7_data_reassembly_exact_length
    (pack32 18 ++ pack16 2 ++ pack16 0x9116 ++ pack32 0 ++ [1, 2])
    [[3, 4], [5, 6, 7, 8, 9], pack32 12 ++ pack16 3 ++ pack16 0x2001 ++ pack32 0]
    [] [1, 2, 3, 4, 5, 6]
    [pack32 12 ++ pack16 3 ++ pack16 0x2001 ++ pack32 0]
    (by decide) (by decide) (by decide) (by rfl)
  refine ⟨by decide, ?_⟩
  have := hmain.2.2 (pack32 12 ++ pack16 3 ++ pack16 0x2001 ++ pack32 0) []
    (by rfl) (by decide) (by decide)
  simpa using this

/-! ## Claim C8 -/

/-- Reading back a packed u32 recovers the value modulo `2^32`. -/
theorem leNat4_pack32_append (n : Nat) (tail : List Nat) :
    leNat4 (pack32 n ++ tail) 0 = n % 4294967296 := by
  show n % 256 % 256 + 256 * (n / 256 % 256 % 256)
      + 65536 * (n / 65536 % 256 % 256)
      + 16777216 * (n / 16777216 % 256 % 256) = n % 4294967296
  omega

/-- The transaction-id field of a container header (u32 at byte offset 8,
after the u32 length and the two u16 type/code fields). -/
theorem leNat4_header_tid (a b c tid : Nat) (tail : List Nat) :
    leNat4 (pack32 a ++ pack16 b ++ pack16 c ++ pack32 tid ++ tail) 8 =
      tid % 4294967296 := by
  have h : leNat4 (pack32 a ++ pack16 b ++ pack16 c ++ pack32 tid ++ tail) 8 =
      leNat4 (pack32 tid ++ tail) 0 := rfl
  rw [h, leNat4_pack32_append]

/-- C8: each `send_command` call draws the current counter value as its
transaction id and leaves the counter exactly 1 larger, so ids of
successive calls within a session increase by exactly 1; the Command
container and the optional Data container of one call both carry that
same id in their headers; `open_session` resets the counter to 0 the
moment the OK response arrives, so the next command is sent with
transaction id 0.  (The counter is assumed below `2^32`, the range
`struct.pack("<I", tid)` accepts.) -/
theorem c8_transaction_id_sequencing (tc code code2 : Nat)
    (params params2 : List Nat) (d : List Nat)
    (chunks chunks2 : List (List Nat)) (rdata : List Nat)
    (htc : tc < 4294967296)
    (hok : receive_response chunks2 [] = Except.ok (RESPONSE_OK, rdata)) :
    (send_command tc code params (some d) chunks).1 = tc + 1 ∧
    (send_command tc code params none chunks).1 = tc + 1 ∧
    (send_command tc code params (some d) chunks).2.1 =
      [build_command_packet code params tc, build_data_packet code d tc] ∧
    leNat4 (build_command_packet code params tc) 8 = tc ∧
    leNat4 (build_data_packet code d tc) 8 = tc ∧
    open_session tc chunks2 = (0, none) ∧
    leNat4 (build_command_packet code2 params2 0) 8 = 0 := by
  have hmod : tc % 4294967296 = tc := Nat.mod_eq_of_lt htc
  refine ⟨rfl, rfl, rfl, (leNat4_header_tid _ _ _ tc _).trans hmod,
    (leNat4_header_tid _ _ _ tc _).trans hmod, ?_, leNat4_header_tid _ _ _ 0 _⟩
  rw [open_session]
  simp only [send_command]
  rw [hok]
  simp

/-- Concrete check for C8 at counter 5: a single OK Response container
makes `open_session` succeed and reset the counter to 0. -/
theorem c8_witness :
    (send_command 5 0x9116 [] (some [1]) []).1 = 5 + 1 ∧
    leNat4 (build_command_packet 0x9116 [] 5) 8 = 5 ∧
    open_session 5 [pack32 12 ++ pack16 3 ++ pack16 0x2001 ++ pack32 5] = (0, none) := by
  have h := c8_transaction_id_sequencing 5 0x9116 0x1001 [] [] [1]
    [] [pack32 12 ++ pack16 3 ++ pack16 0x2001 ++ pack32 5] []
    (by decide)
    (by rw [← receive_go_spec 2 _ _ (by decide)]; rfl)
  exact ⟨h.1, h.2.2.2.1, h.2.2.2.2.2.1⟩

/-! ## Claim C9 -/

/-- C9: `close_session` never raises — whatever the outcome of the
CloseSession exchange over the channel (transport failure, malformed
container, unexpected container type, or any response code, OK or not),
the failure is discarded and the call returns normally. -/
theorem c9_close_session_never_raises (tc : Nat) (chunks : List (List Nat)) :
    close_session tc chunks = (tc + 1, none) := by
  rw [close_session]
  simp only [send_command]
  cases receive_response chunks [] with
  | error e => rfl
  | ok v => rfl

/-! ## Claim C5 -/

/-- C5: protocol-string decode at an in-range offset.  A count byte
`C = 0` returns the empty string with the offset advanced by 1.  For
`C > 0` with all `C*2` declared bytes available, the result is the
UTF-16-LE decoding of the first `(C-1)*2` of those bytes (the 2-byte
terminator dropped) and the offset advances by `1 + C*2`; if those
bytes are not valid UTF-16 the string is empty but the offset still
advances by `1 + C*2`.  If the declared `C*2` bytes reach past the end
of the buffer, the result is the empty string (the function reads
nothing past the end — in the embedding the slice is never taken). -/
theorem c5_read_ptp_string_cases (data : List Nat) (offset : Nat)
    (cs : List Char) (hoff : offset < data.length) :
    (byteAt data offset = 0 → read_ptp_string data offset = ([], offset + 1)) ∧
    (byteAt data offset ≠ 0 →
      offset + 1 + byteAt data offset * 2 ≤ data.length →
      decodeUtf16le (pySlice data (offset + 1)
        (offset + 1 + (byteAt data offset - 1) * 2)) = some cs →
      read_ptp_string data offset = (cs, offset + 1 + byteAt data offset * 2)) ∧
    (byteAt data offset ≠ 0 →
      data.length < offset + 1 + byteAt data offset * 2 →
      read_ptp_string data offset = ([], offset + 1)) ∧
    (byteAt data offset ≠ 0 →
      offset + 1 + byteAt data offset * 2 ≤ data.length →
      decodeUtf16le (pySlice data (offset + 1)
        (offset + 1 + (byteAt data offset - 1) * 2)) = none →
      read_ptp_string data offset = ([], offset + 1 + byteAt data offset * 2)) := by
  have hno : ¬ data.length ≤ offset := by omega
  refine ⟨fun hC => ?_, fun hC hfit hdec => ?_, fun hC hover => ?_,
    fun hC hfit hdec => ?_⟩
  · rw [read_ptp_string]
    simp [hno, hC]
  · have harith : offset + 1 + byteAt data offset * 2 - 2 =
        offset + 1 + (byteAt data offset - 1) * 2 := by omega
    have hfit' : ¬ data.length < offset + 1 + byteAt data offset * 2 := by omega
    rw [read_ptp_string]
    simp only [hno, if_false, hC, if_false, hfit', harith, hdec]
  · have hover' : data.length < offset + 1 + byteAt data offset * 2 := hover
    rw [read_ptp_string]
    simp [hno, hC, hover']
  · have harith : offset + 1 + byteAt data offset * 2 - 2 =
        offset + 1 + (byteAt data offset - 1) * 2 := by omega
    have hfit' : ¬ data.length < offset + 1 + byteAt data offset * 2 := by omega
    rw [read_ptp_string]
    simp only [hno, if_false, hC, if_false, hfit', harith, hdec]

/-- Concrete checks for C5: count byte 0 gives `("", offset+1)`, and
count byte 3 over the UTF-16-LE bytes of `"AB\0"` gives `("AB",
offset+7)`. -/
theorem c5_witness :
    read_ptp_string [0, 9, 9] 0 = ([], 0 + 1) ∧
    read_ptp_string [3, 65, 0, 66, 0, 0, 0] 0 = ("AB".data, 0 + 1 + 3 * 2) :=
  ⟨(c5_read_ptp_string_cases [0, 9, 9] 0 [] (by decide)).1 (by decide),
   by
    have h := (c5_read_ptp_string_cases [3, 65, 0, 66, 0, 0, 0] 0 "AB".data
      (by decide)).2.1 (by decide) (by decide) (by decide)
    simpa using h⟩

/-! ## Claim C6 -/

/-- The synthetic device-info buffer from the claim: 8 skipped bytes, an
empty vendor-extension-description string, 2 functional-mode bytes, five
empty u32-count-prefixed arrays, then the protocol strings `"Canon"`,
`"Canon EOS R7"` and `"1.0.0"`. -/
def deviceInfoSample : List Nat :=
  [0, 0, 0, 0, 0, 0, 0, 0] ++ [0] ++ [0, 0] ++
  [0, 0, 0, 0] ++ [0, 0, 0, 0] ++ [0, 0, 0, 0] ++ [0, 0, 0, 0] ++ [0, 0, 0, 0] ++
  ([6] ++ [67, 0, 97, 0, 110, 0, 111, 0, 110, 0] ++ [0, 0]) ++
  ([13] ++ [67, 0, 97, 0, 110, 0, 111, 0, 110, 0, 32, 0, 69, 0, 79, 0, 83, 0,
    32, 0, 82, 0, 55, 0] ++ [0, 0]) ++
  ([6] ++ [49, 0, 46, 0, 48, 0, 46, 0, 48, 0] ++ [0, 0])

/-- C6: device-info decoding advances its cursor through the fixed skip /
string / skip / five-array-skips / three-strings sequence — an array
skip finding fewer than 4 remaining bytes leaves the offset unchanged —
and on the synthetic buffer with five empty arrays it decodes exactly
the manufacturer `"Canon"`, model `"Canon EOS R7"` and version
`"1.0.0"`. -/
theorem c6_parse_device_info (data : List Nat) (offset : Nat)
    (h : data.length < offset + 4) :
    skip_uint16_array data offset = offset ∧
    parse_device_info deviceInfoSample =
      ⟨"Canon".data, "Canon EOS R7".data, "1.0.0".data⟩ := by
  constructor
  · rw [skip_uint16_array]
    simp [h]
  · decide

/-- Concrete check for C6 (hypothesis discharged on the empty buffer). -/
theorem c6_witness :
    skip_uint16_array [] 0 = 0 ∧
    parse_device_info deviceInfoSample =
      ⟨"Canon".data, "Canon EOS R7".data, "1.0.0".data⟩ :=
  c6_parse_device_info [] 0 (by decide)

end Shutr7
